import Mathlib

/-!
Verification of the tally_iv claim-status system: a shallow embedding of
the X12 277 claim-status decoder (`claims_status/app/services/converter_service.py`),
the payer-name resolver (`stedi-excel-processor/src/payer_lookup.py` and
`claims_status/app/services/claim_service.py`), and the batch submission
engines (`stedi-excel-processor/src/processor.py`,
`claims_status/app/services/claim_service.py`).

Python strings are modelled as Lean `String`, with the character-level
operations (`replace`, `split`, `strip`, `in`, `upper`, regex substitution
over the ASCII alphabet) implemented structurally over `List Char` so that
all definitions evaluate in the kernel.
-/

/-! ## Character-list utilities (models of the Python string operations used) -/

/-- Model of Python whitespace for `str.strip` / `\s` (ASCII inputs). -/
def isWs (c : Char) : Bool :=
  c = ' ' || c = '\t' || c = '\n' || c = '\r' || c = '\x0b' || c = '\x0c'

/-- Model of Python `s.split(sep)` for a single-character separator:
splitting the empty string gives `[""]`, and separators at the ends give
empty pieces, exactly as in Python. -/
def splitOnChar (sep : Char) : List Char → List (List Char)
  | [] => [[]]
  | c :: cs =>
    if c = sep then [] :: splitOnChar sep cs
    else
      match splitOnChar sep cs with
      | [] => [[c]]
      | h :: t => (c :: h) :: t

/-- Model of Python `s.replace('~', '~\n')`. -/
def replaceTilde : List Char → List Char
  | [] => []
  | c :: cs => if c = '~' then '~' :: '\n' :: replaceTilde cs else c :: replaceTilde cs

/-- Model of Python `s.strip()`: drop whitespace from both ends. -/
def stripL (l : List Char) : List Char :=
  ((l.dropWhile isWs).reverse.dropWhile isWs).reverse

/-- `isPre needle hay` is true when `needle` is an initial run of `hay`. -/
def isPre : List Char → List Char → Bool
  | [], _ => true
  | _ :: _, [] => false
  | a :: as, b :: bs => a = b && isPre as bs

/-- Model of Python `needle in hay` for strings (substring containment). -/
def contSub (needle : List Char) : List Char → Bool
  | [] => needle.isEmpty
  | c :: rest => isPre needle (c :: rest) || contSub needle rest

/-- String-level wrappers. -/
def splitStr (sep : Char) (s : String) : List String :=
  (splitOnChar sep s.data).map List.asString

def stripStr (s : String) : String := (stripL s.data).asString

def isSubstr (needle hay : String) : Bool := contSub needle.data hay.data

/-! ## Decoder data model (`converter_service.py`, dict shapes from `parse`) -/

/-- One adjustment entry, as built by `X12ClaimParser.parse`. -/
structure Adjustment where
  status_code : String
  reason_code : String
  amount : String
  entity_code : String
deriving DecidableEq, Repr

/-- One service line dict, as built for an `SVC` segment. -/
structure ServiceLine where
  cpt_code : String
  modifier : String
  charge : String
  paid : String
  dos : String
  adjustments : List Adjustment
  status_code : String
  status_code2 : String
deriving DecidableEq, Repr

/-- One claim dict, as opened for a level-`22` `HL` segment.  The
`pending_dos` field models the optional `_pending_dos` key. -/
structure Claim where
  claim_number : String
  status_code : String
  status_code2 : String
  total_charge : String
  paid_amount : String
  patient_name : String
  patient_id : String
  services : List ServiceLine
  claim_adjustments : List Adjustment
  check_number : String
  check_date : String
  adjudication_date : String
  pending_dos : Option String
deriving DecidableEq, Repr

/-- The fresh claim dict created at `HL` level 22. -/
def freshClaim : Claim :=
  { claim_number := "", status_code := "", status_code2 := "",
    total_charge := "0.00", paid_amount := "0.00",
    patient_name := "", patient_id := "",
    services := [], claim_adjustments := [],
    check_number := "", check_date := "", adjudication_date := "",
    pending_dos := none }

/-- Mutable parse state: the committed claims list, the open claim, whether a
service line is currently open (the open service line is the last element of
the open claim's `services`, which Python mutates through the
`current_service` alias), and the unused `hierarchical_levels` entries. -/
structure ParseState where
  claims : List Claim
  current_claim : Option Claim
  service_open : Bool
  hls : List (String × String × String)
deriving Repr

def initState : ParseState := ⟨[], none, false, []⟩

/-- Apply `f` to the last element of a list (the open service line). -/
def updateLast (f : ServiceLine → ServiceLine) : List ServiceLine → List ServiceLine
  | [] => []
  | [s] => [f s]
  | s :: s' :: rest => s :: updateLast f (s' :: rest)

/-- Run a segment handler on the open claim, if any (the Python
`... and current_claim:` guard). -/
def withClaim (st : ParseState) (f : Claim → Claim) : ParseState :=
  match st.current_claim with
  | some c => { st with current_claim := some (f c) }
  | none => st

/-- Reformat an 8-character `YYYYMMDD` date to `MM/DD/YYYY`
(`f"{d[4:6]}/{d[6:8]}/{d[0:4]}"`). -/
def fmtDate (s : String) : String :=
  match s.data with
  | [y1, y2, y3, y4, m1, m2, d1, d2] =>
    ([m1, m2, '/', d1, d2, '/', y1, y2, y3, y4] : List Char).asString
  | _ => s

/-- `HL` handler: record the hierarchical level; at level `22` commit the
open claim and open a fresh one, clearing the open service line. -/
def onHL (st : ParseState) (fields : List String) : ParseState :=
  let hl_id := fields.getD 1 ""
  let parent_id := fields.getD 2 ""
  let level_code := fields.getD 3 ""
  let st1 := { st with hls := (hl_id, parent_id, level_code) :: st.hls }
  if level_code = "22" then
    let committed := match st1.current_claim with
      | some c => st1.claims ++ [c]
      | none => st1.claims
    { st1 with claims := committed, current_claim := some freshClaim, service_open := false }
  else st1

/-- `NM1` handler (entity code `IL`): patient name and id. -/
def onNM1 (c : Claim) (fields : List String) : Claim :=
  if fields.getD 1 "" = "IL" then
    let last_name := fields.getD 3 ""
    let first_name := fields.getD 4 ""
    { c with patient_name := stripStr (first_name ++ " " ++ last_name),
             patient_id := fields.getD 9 "" }
  else c

/-- `TRN` handler: field 2 becomes the claim number. -/
def onTRN (c : Claim) (fields : List String) : Claim :=
  if 2 < fields.length then { c with claim_number := fields.getD 2 "" } else c

/-- One service-level `STC` candidate step over the position values
`[segments[1], segments[10], segments[11]]`, threading the per-segment
`adjustment_keys` set. -/
def stcProcessVals : List String → List String × ServiceLine → List String × ServiceLine
  | [], acc => acc
  | v :: vs, (keys, svc) =>
    if v = "" then stcProcessVals vs (keys, svc)
    else
      let status_info := splitStr ':' v
      let status_code := status_info.getD 0 ""
      let reason_code := status_info.getD 1 ""
      let entity_code := status_info.getD 2 "1P"
      if status_code ≠ "" ∨ reason_code ≠ "" then
        let adj_key := status_code ++ ":" ++ reason_code ++ ":" ++ entity_code
        if adj_key ∈ keys then stcProcessVals vs (keys, svc)
        else
          let svc' :=
            { svc with
              status_code := if svc.status_code = "" then status_code else svc.status_code,
              status_code2 := if svc.status_code2 = "" then reason_code else svc.status_code2,
              adjustments := svc.adjustments ++
                [⟨status_code, reason_code, svc.charge,
                  if entity_code = "" then "1P" else entity_code⟩] }
          stcProcessVals vs (keys ++ [adj_key], svc')
      else stcProcessVals vs (keys, svc)

/-- Service-level `STC` handler applied to one service line. -/
def svcSTCApply (svc : ServiceLine) (fields : List String) : ServiceLine :=
  (stcProcessVals [fields.getD 1 "", fields.getD 10 "", fields.getD 11 ""] ([], svc)).2

/-- Service-level `STC` handler at the claim level (mutates the open
service line, i.e. the last element of `services`). -/
def onSTCsvc (c : Claim) (fields : List String) : Claim :=
  { c with services := updateLast (fun svc => svcSTCApply svc fields) c.services }

/-- Claim-level `STC` handler: status fields, adjudication date, amount,
then always append a claim-level adjustment snapshot (entity code `''`). -/
def onSTCclaim (c : Claim) (fields : List String) : Claim :=
  let c1 :=
    if 1 < fields.length then
      let status_info := splitStr ':' (fields.getD 1 "")
      { c with status_code := status_info.getD 0 "", status_code2 := status_info.getD 1 "" }
    else c
  let c2 :=
    if 2 < fields.length ∧ fields.getD 2 "" ≠ "" then
      if (fields.getD 2 "").length = 8 then
        { c1 with adjudication_date := fmtDate (fields.getD 2 "") }
      else c1
    else c1
  let c3 :=
    if 4 < fields.length ∧ fields.getD 4 "" ≠ "" then
      { c2 with total_charge := fields.getD 4 "" }
    else c2
  { c3 with claim_adjustments := c3.claim_adjustments ++
      [⟨c3.status_code, c3.status_code2, c3.total_charge, ""⟩] }

/-- `REF` handler (qualifier `1K`): overwrite the claim number. -/
def onREF (c : Claim) (fields : List String) : Claim :=
  if fields.getD 1 "" = "1K" then { c with claim_number := fields.getD 2 "" } else c

/-- Assign a formatted `472` date: to the open service line if one is open,
else stash it as the pending date (only if none is stashed yet). -/
def dtpAssign (c : Claim) (serviceOpen : Bool) : Option String → Claim
  | some f =>
    if serviceOpen then
      { c with services := updateLast (fun s => { s with dos := f }) c.services }
    else if c.pending_dos = none then { c with pending_dos := some f }
    else c
  | none => c

/-- `DTP` handler (qualifier `472`): reformat a `D8` or `RD8` service date and
assign it to the open service line, or stash it as the pending date. -/
def onDTP (c : Claim) (serviceOpen : Bool) (fields : List String) : Claim :=
  if fields.getD 1 "" = "472" then
    let date_format := fields.getD 2 ""
    let date_value := fields.getD 3 ""
    let formatted : Option String :=
      if date_format = "D8" ∧ date_value.length = 8 then some (fmtDate date_value)
      else if date_format = "RD8" ∧ date_value.data.contains '-' then
        let start_date := (splitStr '-' date_value).getD 0 ""
        if start_date.length = 8 then some (fmtDate start_date) else none
      else none
    dtpAssign c serviceOpen formatted
  else c

/-- `SVC` handler: open a new service line, decode the composite CPT field,
apply a pending date, and append it to the claim's service list. -/
def onSVC (c : Claim) (fields : List String) : Claim :=
  let svc0 : ServiceLine :=
    { cpt_code := "", modifier := "", charge := fields.getD 2 "0.00",
      paid := fields.getD 3 "0.00", dos := "", adjustments := [],
      status_code := "", status_code2 := "" }
  let svc1 :=
    if 1 < fields.length then
      let cpt_parts := splitStr ':' (fields.getD 1 "")
      if 3 ≤ cpt_parts.length then
        { svc0 with cpt_code := cpt_parts.getD 1 "", modifier := cpt_parts.getD 2 "" }
      else if cpt_parts.length = 2 then { svc0 with cpt_code := cpt_parts.getD 1 "" }
      else { svc0 with cpt_code := fields.getD 1 "" }
    else svc0
  match c.pending_dos with
  | some p => { c with pending_dos := none, services := c.services ++ [{ svc1 with dos := p }] }
  | none => { c with services := c.services ++ [svc1] }

/-- Dispatch one segment (one line of the transaction) on its tag, with the
guards of the Python `if/elif` chain. -/
def processSegment (st : ParseState) (fields : List String) : ParseState :=
  let segment_id := fields.getD 0 ""
  if segment_id = "HL" then onHL st fields
  else if segment_id = "NM1" then withClaim st (fun c => onNM1 c fields)
  else if segment_id = "TRN" then withClaim st (fun c => onTRN c fields)
  else if segment_id = "STC" then
    if st.service_open then withClaim st (fun c => onSTCsvc c fields)
    else withClaim st (fun c => onSTCclaim c fields)
  else if segment_id = "REF" then withClaim st (fun c => onREF c fields)
  else if segment_id = "DTP" then withClaim st (fun c => onDTP c st.service_open fields)
  else if segment_id = "SVC" then
    match st.current_claim with
    | some c => { st with current_claim := some (onSVC c fields), service_open := true }
    | none => st
  else st

/-- Fields of one line: remove the `~` characters and split on `*`. -/
def fieldsOfLine (l : List Char) : List String :=
  (splitOnChar '*' (l.filter (fun c => c ≠ '~'))).map List.asString

/-- Process one line: strip it, skip blank lines and bare `~`, else
dispatch the segment. -/
def procLine (st : ParseState) (line : List Char) : ParseState :=
  let l := stripL line
  if l = [] ∨ l = ['~'] then st else processSegment st (fieldsOfLine l)

/-- The parser object: `x12_content` and the `claims` accumulator set up by
`X12ClaimParser.__init__`. -/
structure X12ClaimParser where
  x12_content : String
  claims : List Claim
deriving Repr

/-- `X12ClaimParser(content)`: store the content and reset `claims` to `[]`. -/
def X12ClaimParser.init (content : String) : X12ClaimParser := ⟨content, []⟩

/-- The segment-processing loop of `parse`, starting from the instance's
current `claims` accumulator. -/
def parseFold (content : String) (claims0 : List Claim) : ParseState :=
  (splitOnChar '\n' (replaceTilde content.data)).foldl procLine
    { initState with claims := claims0 }

/-- End of input: commit the open claim, if any. -/
def commitFinal (st : ParseState) : List Claim :=
  match st.current_claim with
  | some c => st.claims ++ [c]
  | none => st.claims

/-- `X12ClaimParser.parse`: normalise segment terminators, process each line,
commit the final open claim, and return (and store) the claims list. -/
def X12ClaimParser.parse (p : X12ClaimParser) : List Claim × X12ClaimParser :=
  let cs := commitFinal (parseFold p.x12_content p.claims)
  (cs, ⟨p.x12_content, cs⟩)

/-- Decoding a transaction text, as the services do it
(`claim_service.py:419`): construct a fresh parser and run `parse`. -/
def decode (t : String) : List Claim := (X12ClaimParser.init t).parse.1

def defaultClaim : Claim := freshClaim

def defaultService : ServiceLine :=
  { cpt_code := "", modifier := "", charge := "", paid := "", dos := "",
    adjustments := [], status_code := "", status_code2 := "" }

/-! ## Concrete transactions used by the claims -/

/-- The transaction of spec §8's decoder round-trip property. -/
def c4text : String :=
  "HL*4*3*22*0~NM1*IL*1*HECTOR*HECTOR****MI*U5105280302~TRN*2*ABC123~STC*F2:542*20251031**1293.81*0*20250924~DTP*472*D8*20250725~SVC*HC:A4604*181.38*0****1~"

/-- A transaction whose single service line receives the same status triple
from two separate `STC` segments. -/
def dupText : String := "HL*1**22*0~SVC*HC:A1*10*0~STC*F2:171~STC*F2:171~"

/-- Claim C4: decoding the concrete six-segment transaction yields exactly one
Claim with the stated header fields and exactly one ServiceLine with the
stated CPT code, date of service and charge. -/
theorem decode_c4_roundtrip :
    (decode c4text).length = 1 ∧
    ((decode c4text).headD defaultClaim).claim_number = "ABC123" ∧
    ((decode c4text).headD defaultClaim).status_code = "F2" ∧
    ((decode c4text).headD defaultClaim).status_code2 = "542" ∧
    ((decode c4text).headD defaultClaim).total_charge = "1293.81" ∧
    ((decode c4text).headD defaultClaim).adjudication_date = "10/31/2025" ∧
    ((decode c4text).headD defaultClaim).patient_name = "HECTOR HECTOR" ∧
    ((decode c4text).headD defaultClaim).patient_id = "U5105280302" ∧
    ((decode c4text).headD defaultClaim).services.length = 1 ∧
    (((decode c4text).headD defaultClaim).services.headD defaultService).cpt_code = "A4604" ∧
    (((decode c4text).headD defaultClaim).services.headD defaultService).dos = "07/25/2025" ∧
    (((decode c4text).headD defaultClaim).services.headD defaultService).charge = "181.38" := by
  decide

/-- Claim C1 counterexample: after decoding `dupText`, the single service
line's adjustments list contains the triple (`F2`, `171`, `1P`) twice — the
dedup set is rebuilt for every `STC` segment, so a triple repeated by a later
segment is re-appended rather than dropped. -/
theorem service_adjustments_duplicate_triple :
    ((((decode dupText).headD defaultClaim).services.headD defaultService).adjustments.map
        (fun a => (a.status_code, a.reason_code, a.entity_code))) =
      [("F2", "171", "1P"), ("F2", "171", "1P")] := by
  decide

/-- Claim C5 counterexample: the claim-level adjustment appended for the
`STC*F2:542*...` segment of `c4text` (which supplies no entity code) carries
`entity_code = ""`, not the default `"1P"`. -/
theorem claim_adjustment_entity_empty :
    (((decode c4text).headD defaultClaim).claim_adjustments.map (fun a => a.entity_code)) =
      [""] ∧ ("" : String) ≠ "1P" := by
  decide

/-- Within a single `STC` segment, candidate positions carrying the same raw
value `v` (hence the same dedup key) produce exactly one Adjustment — here
positions 1 and 10 both carry the non-empty value `v`. -/
theorem stc_dedup_within_segment (svc : ServiceLine) (v : String) (hv : v ≠ "")
    (hsr : (splitStr ':' v).getD 0 "" ≠ "" ∨ (splitStr ':' v).getD 1 "" ≠ "") :
    (svcSTCApply svc ["STC", v, "", "", "", "", "", "", "", "", v]).adjustments =
      svc.adjustments ++
        [⟨(splitStr ':' v).getD 0 "", (splitStr ':' v).getD 1 "", svc.charge,
          if (splitStr ':' v).getD 2 "1P" = "" then "1P" else (splitStr ':' v).getD 2 "1P"⟩] := by
  have hf1 : (["STC", v, "", "", "", "", "", "", "", "", v] : List String).getD 1 "" = v := rfl
  have hf10 : (["STC", v, "", "", "", "", "", "", "", "", v] : List String).getD 10 "" = v := rfl
  have hf11 : (["STC", v, "", "", "", "", "", "", "", "", v] : List String).getD 11 "" = "" := rfl
  unfold svcSTCApply
  rw [hf1, hf10, hf11]
  rw [stcProcessVals, if_neg hv]
  simp only []
  rw [if_pos hsr, if_neg (List.not_mem_nil _)]
  rw [stcProcessVals, if_neg hv]
  simp only []
  simp only [List.nil_append]
  rw [if_pos hsr, if_pos (List.mem_singleton_self _)]
  rw [stcProcessVals, if_pos rfl, stcProcessVals]

/-- An example open service line. -/
def svcExample : ServiceLine :=
  { cpt_code := "A1", modifier := "", charge := "10", paid := "0", dos := "",
    adjustments := [], status_code := "", status_code2 := "" }

/-- `stc_dedup_within_segment` at `v = "F2:171"`. -/
theorem stc_dedup_within_segment_witness :
    (svcSTCApply svcExample ["STC", "F2:171", "", "", "", "", "", "", "", "", "F2:171"]).adjustments =
      svcExample.adjustments ++
        [⟨(splitStr ':' "F2:171").getD 0 "", (splitStr ':' "F2:171").getD 1 "", svcExample.charge,
          if (splitStr ':' "F2:171").getD 2 "1P" = "" then "1P"
          else (splitStr ':' "F2:171").getD 2 "1P"⟩] :=
  stc_dedup_within_segment svcExample "F2:171" (by decide) (Or.inl (by decide))

def entityOKClaim (c : Claim) : Prop :=
  (∀ a ∈ c.claim_adjustments, a.entity_code = "") ∧
  (∀ s ∈ c.services, ∀ a ∈ s.adjustments, a.entity_code ≠ "")

def entityOKState (st : ParseState) : Prop :=
  (∀ c ∈ st.claims, entityOKClaim c) ∧ (∀ c, st.current_claim = some c → entityOKClaim c)

theorem stcProcessVals_entity (vs : List String) :
    ∀ (keys : List String) (svc : ServiceLine),
    (∀ a ∈ svc.adjustments, a.entity_code ≠ "") →
    ∀ a ∈ (stcProcessVals vs (keys, svc)).2.adjustments, a.entity_code ≠ "" := by
  induction vs with
  | nil => intro keys svc h; exact h
  | cons v vs ih =>
    intro keys svc h
    rw [stcProcessVals]
    by_cases h1 : v = ""
    · rw [if_pos h1]; exact ih keys svc h
    rw [if_neg h1]
    dsimp only
    by_cases h2 : (splitStr ':' v).getD 0 "" ≠ "" ∨ (splitStr ':' v).getD 1 "" ≠ ""
    · rw [if_pos h2]
      by_cases h3 : ((splitStr ':' v).getD 0 "" ++ ":" ++ (splitStr ':' v).getD 1 "" ++ ":" ++
          (splitStr ':' v).getD 2 "1P") ∈ keys
      · rw [if_pos h3]; exact ih keys svc h
      · rw [if_neg h3]
        refine ih _ _ ?_
        intro a ha
        rcases List.mem_append.mp ha with ha | ha
        · exact h a ha
        · rcases List.mem_singleton.mp ha with rfl
          dsimp only
          by_cases he : (splitStr ':' v).getD 2 "1P" = ""
          · rw [if_pos he]; decide
          · rw [if_neg he]; exact he
    · rw [if_neg h2]; exact ih keys svc h

theorem updateLast_forall {Q : ServiceLine → Prop} (f : ServiceLine → ServiceLine) :
    ∀ l : List ServiceLine, (∀ s ∈ l, Q s) → (∀ s, Q s → Q (f s)) →
    ∀ s ∈ updateLast f l, Q s := by
  intro l
  induction l with
  | nil => intro _ _ s hs; simp [updateLast] at hs
  | cons s0 rest ih =>
    intro hl hf s hs
    cases rest with
    | nil =>
      rw [updateLast] at hs
      rcases List.mem_singleton.mp hs with rfl
      exact hf s0 (hl s0 (List.mem_singleton_self s0))
    | cons s1 r1 =>
      rw [updateLast] at hs
      rcases List.mem_cons.mp hs with rfl | hs
      · exact hl s (List.mem_cons_self _ _)
      · exact ih (fun x hx => hl x (List.mem_cons_of_mem _ hx)) hf s hs

theorem onSTCclaim_shape (c : Claim) (fields : List String) :
    ∃ adj, (onSTCclaim c fields).claim_adjustments = c.claim_adjustments ++ [adj] ∧
      adj.entity_code = "" ∧ (onSTCclaim c fields).services = c.services := by
  unfold onSTCclaim
  split_ifs <;> exact ⟨_, rfl, rfl, rfl⟩

theorem onSVC_shape (c : Claim) (fields : List String) :
    ∃ svc, (onSVC c fields).services = c.services ++ [svc] ∧ svc.adjustments = [] ∧
      (onSVC c fields).claim_adjustments = c.claim_adjustments := by
  unfold onSVC
  rcases hp : c.pending_dos with _ | p <;> dsimp only <;>
    split_ifs <;> exact ⟨_, rfl, rfl, rfl⟩

theorem entityOK_onNM1 (c : Claim) (fields : List String) (h : entityOKClaim c) :
    entityOKClaim (onNM1 c fields) := by
  unfold onNM1; split_ifs <;> exact h

theorem entityOK_onTRN (c : Claim) (fields : List String) (h : entityOKClaim c) :
    entityOKClaim (onTRN c fields) := by
  unfold onTRN; split_ifs <;> exact h

theorem entityOK_onREF (c : Claim) (fields : List String) (h : entityOKClaim c) :
    entityOKClaim (onREF c fields) := by
  unfold onREF; split_ifs <;> exact h

theorem entityOK_dtpAssign (c : Claim) (so : Bool) (fo : Option String)
    (h : entityOKClaim c) : entityOKClaim (dtpAssign c so fo) := by
  cases fo with
  | none => exact h
  | some f =>
    rw [dtpAssign]
    split_ifs with h2 h3
    · exact ⟨h.1, updateLast_forall _ c.services h.2 (fun s hs => hs)⟩
    · exact h
    · exact h

theorem entityOK_onDTP (c : Claim) (so : Bool) (fields : List String)
    (h : entityOKClaim c) : entityOKClaim (onDTP c so fields) := by
  unfold onDTP
  by_cases h1 : fields.getD 1 "" = "472"
  · rw [if_pos h1]; exact entityOK_dtpAssign c so _ h
  · rw [if_neg h1]; exact h

theorem entityOK_onSTCclaim (c : Claim) (fields : List String) (h : entityOKClaim c) :
    entityOKClaim (onSTCclaim c fields) := by
  rcases onSTCclaim_shape c fields with ⟨adj, hadj, hent, hsvc⟩
  constructor
  · rw [hadj]
    intro a ha
    rcases List.mem_append.mp ha with ha | ha
    · exact h.1 a ha
    · rcases List.mem_singleton.mp ha with rfl; exact hent
  · rw [hsvc]; exact h.2

theorem entityOK_onSVC (c : Claim) (fields : List String) (h : entityOKClaim c) :
    entityOKClaim (onSVC c fields) := by
  rcases onSVC_shape c fields with ⟨svc, hsvc, hadj, hca⟩
  constructor
  · rw [hca]; exact h.1
  · rw [hsvc]
    intro s hs
    rcases List.mem_append.mp hs with hs | hs
    · exact h.2 s hs
    · rcases List.mem_singleton.mp hs with rfl
      rw [hadj]; intro a ha; simp at ha

theorem entityOK_onSTCsvc (c : Claim) (fields : List String) (h : entityOKClaim c) :
    entityOKClaim (onSTCsvc c fields) := by
  unfold onSTCsvc
  refine ⟨h.1, ?_⟩
  exact updateLast_forall _ c.services h.2
    (fun s hs => stcProcessVals_entity _ [] s hs)

theorem entityOK_freshClaim : entityOKClaim freshClaim := by
  constructor <;> intro x hx <;> simp [freshClaim] at hx

theorem entityOK_withClaim (st : ParseState) (f : Claim → Claim)
    (hst : entityOKState st) (hf : ∀ c, entityOKClaim c → entityOKClaim (f c)) :
    entityOKState (withClaim st f) := by
  unfold withClaim
  rcases hc : st.current_claim with _ | c
  · exact hst
  · refine ⟨hst.1, ?_⟩
    intro c' hc'
    injection hc' with h'
    subst h'
    exact hf c (hst.2 c hc)

theorem entityOK_onHL (st : ParseState) (fields : List String)
    (hst : entityOKState st) : entityOKState (onHL st fields) := by
  unfold onHL
  dsimp only
  split_ifs with h22
  · rcases hc : st.current_claim with _ | c
    · refine ⟨hst.1, ?_⟩
      intro c' hc'
      injection hc' with h'
      subst h'
      exact entityOK_freshClaim
    · constructor
      · intro x hx
        rcases List.mem_append.mp hx with hx | hx
        · exact hst.1 x hx
        · rcases List.mem_singleton.mp hx with rfl
          exact hst.2 x hc
      · intro c' hc'
        injection hc' with h'
        subst h'
        exact entityOK_freshClaim
  · exact ⟨hst.1, hst.2⟩

theorem entityOK_processSegment (st : ParseState) (fields : List String)
    (hst : entityOKState st) : entityOKState (processSegment st fields) := by
  unfold processSegment
  dsimp only
  split_ifs with h1 h2 h3 h4 h5 h6 h7 h8
  · exact entityOK_onHL st fields hst
  · exact entityOK_withClaim st _ hst (fun c hc => entityOK_onNM1 c fields hc)
  · exact entityOK_withClaim st _ hst (fun c hc => entityOK_onTRN c fields hc)
  · exact entityOK_withClaim st _ hst (fun c hc => entityOK_onSTCsvc c fields hc)
  · exact entityOK_withClaim st _ hst (fun c hc => entityOK_onSTCclaim c fields hc)
  · exact entityOK_withClaim st _ hst (fun c hc => entityOK_onREF c fields hc)
  · exact entityOK_withClaim st _ hst (fun c hc => entityOK_onDTP c st.service_open fields hc)
  · rcases hc : st.current_claim with _ | c
    · exact hst
    · refine ⟨hst.1, ?_⟩
      intro c' hc'
      injection hc' with h'
      subst h'
      exact entityOK_onSVC c fields (hst.2 c hc)
  · exact hst

theorem entityOK_procLine (st : ParseState) (line : List Char)
    (hst : entityOKState st) : entityOKState (procLine st line) := by
  unfold procLine
  dsimp only
  split_ifs with h1
  · exact hst
  · exact entityOK_processSegment st _ hst

theorem entityOK_foldl (lines : List (List Char)) :
    ∀ st : ParseState, entityOKState st → entityOKState (lines.foldl procLine st) := by
  induction lines with
  | nil => intro st hst; exact hst
  | cons l ls ih => intro st hst; exact ih _ (entityOK_procLine st l hst)

theorem entityOK_initState : entityOKState initState := by
  constructor
  · intro c hc; simp [initState] at hc
  · intro c hc; simp [initState] at hc

theorem entityOK_commitFinal (st : ParseState) (hst : entityOKState st) :
    ∀ c ∈ commitFinal st, entityOKClaim c := by
  unfold commitFinal
  rcases hc : st.current_claim with _ | c
  · exact hst.1
  · intro x hx
    rcases List.mem_append.mp hx with hx | hx
    · exact hst.1 x hx
    · rcases List.mem_singleton.mp hx with rfl
      exact hst.2 x hc

theorem getD_eq_of_lt {α : Type} :
    ∀ (l : List α) (i : Nat) (d d' : α), i < l.length → l.getD i d = l.getD i d' := by
  intro l
  induction l with
  | nil => intro i d d' h; simp at h
  | cons x xs ih =>
    intro i d d' h
    cases i with
    | zero => rfl
    | succ n => exact ih n d d' (Nat.lt_of_succ_lt_succ h)

theorem getD_of_le {α : Type} :
    ∀ (l : List α) (i : Nat) (d : α), l.length ≤ i → l.getD i d = d := by
  intro l
  induction l with
  | nil => intro i d _; rfl
  | cons x xs ih =>
    intro i d h
    cases i with
    | zero => simp at h
    | succ n => exact ih n d (Nat.le_of_succ_le_succ h)

theorem stcProcessVals_absent_entity : ∀ (vs keys : List String) (svc : ServiceLine),
    (∀ v ∈ vs, (splitStr ':' v).getD 2 "" = "") →
    ∀ a ∈ (stcProcessVals vs (keys, svc)).2.adjustments,
      a ∈ svc.adjustments ∨ a.entity_code = "1P" := by
  intro vs
  induction vs with
  | nil => intro keys svc _ a ha; exact Or.inl ha
  | cons v vs ih =>
    intro keys svc hv a ha
    have hvtail : ∀ v' ∈ vs, (splitStr ':' v').getD 2 "" = "" :=
      fun v' hv' => hv v' (List.mem_cons_of_mem _ hv')
    have hvhead : (splitStr ':' v).getD 2 "" = "" := hv v (List.mem_cons_self _ _)
    rw [stcProcessVals] at ha
    by_cases h1 : v = ""
    · rw [if_pos h1] at ha
      exact ih keys svc hvtail a ha
    rw [if_neg h1] at ha
    dsimp only at ha
    by_cases h2 : (splitStr ':' v).getD 0 "" ≠ "" ∨ (splitStr ':' v).getD 1 "" ≠ ""
    · rw [if_pos h2] at ha
      by_cases h3 : ((splitStr ':' v).getD 0 "" ++ ":" ++ (splitStr ':' v).getD 1 "" ++ ":" ++
          (splitStr ':' v).getD 2 "1P") ∈ keys
      · rw [if_pos h3] at ha
        exact ih keys svc hvtail a ha
      · rw [if_neg h3] at ha
        rcases ih _ _ hvtail a ha with hmem | h1p
        · rcases List.mem_append.mp hmem with hold | hnew
          · exact Or.inl hold
          · rcases List.mem_singleton.mp hnew with rfl
            right
            dsimp only
            by_cases hlen : 2 < (splitStr ':' v).length
            · rw [getD_eq_of_lt _ 2 "1P" "" hlen, hvhead]
              rfl
            · rw [getD_of_le _ 2 "1P" (Nat.le_of_not_lt hlen)]
              decide
        · exact Or.inr h1p
    · rw [if_neg h2] at ha
      exact ih keys svc hvtail a ha

/-- Claim C5 (amended): every claim-level Adjustment produced by the decoder
carries `entity_code = ""` (the handler hard-codes the empty string, never
`"1P"`), while every service-level Adjustment carries a non-empty entity
code; and whenever every candidate of a service-level `STC` segment has an
absent or explicitly empty entity sub-field, each Adjustment the segment
appends carries exactly the default `"1P"`. -/
theorem decoder_adjustment_entity_codes :
    (∀ (t : String), ∀ c ∈ decode t,
      (∀ a ∈ c.claim_adjustments, a.entity_code = "") ∧
      (∀ s ∈ c.services, ∀ a ∈ s.adjustments, a.entity_code ≠ "")) ∧
    (∀ (svc : ServiceLine) (fields : List String),
      (∀ v ∈ [fields.getD 1 "", fields.getD 10 "", fields.getD 11 ""],
        (splitStr ':' v).getD 2 "" = "") →
      ∀ a ∈ (svcSTCApply svc fields).adjustments,
        a ∈ svc.adjustments ∨ a.entity_code = "1P") := by
  constructor
  · intro t c hc
    have hc' : c ∈ commitFinal (parseFold t []) := hc
    have hinv : entityOKState (parseFold t []) :=
      entityOK_foldl _ _ entityOK_initState
    exact entityOK_commitFinal _ hinv c hc'
  · intro svc fields h
    exact stcProcessVals_absent_entity _ [] svc h

/-- A transaction with a claim-level adjustment and a service-level adjustment. -/
def mixText : String := "HL*1**22*0~STC*F2:542*20251031**100*0~SVC*HC:A1*10*0~STC*F2:171~"

/-- Witness for `decoder_adjustment_entity_codes`: the first claim decoded
from `mixText` has a claim-level adjustment (entity `""`) and a service-level
adjustment (entity `"1P"`); and the segment `STC*F2:171` — whose candidate
supplies no entity sub-field — appends only `"1P"` adjustments. -/
theorem decoder_adjustment_entity_codes_witness :
    ((∀ a ∈ ((decode mixText).headD defaultClaim).claim_adjustments, a.entity_code = "") ∧
     (∀ s ∈ ((decode mixText).headD defaultClaim).services,
       ∀ a ∈ s.adjustments, a.entity_code ≠ "")) ∧
    (∀ a ∈ (svcSTCApply svcExample ["STC", "F2:171"]).adjustments,
      a ∈ svcExample.adjustments ∨ a.entity_code = "1P") :=
  ⟨decoder_adjustment_entity_codes.1 mixText ((decode mixText).headD defaultClaim) (by decide),
   decoder_adjustment_entity_codes.2 svcExample ["STC", "F2:171"] (by decide)⟩

theorem withClaim_claims (st : ParseState) (cs : List Claim) (f : Claim → Claim) :
    withClaim { st with claims := cs ++ st.claims } f =
      { withClaim st f with claims := cs ++ (withClaim st f).claims } := by
  obtain ⟨cls, cc, so, hl⟩ := st
  cases cc <;> rfl

theorem onHL_claims (st : ParseState) (cs : List Claim) (fields : List String) :
    onHL { st with claims := cs ++ st.claims } fields =
      { onHL st fields with claims := cs ++ (onHL st fields).claims } := by
  obtain ⟨cls, cc, so, hl⟩ := st
  unfold onHL
  dsimp only
  split_ifs with h22
  · cases cc
    · rfl
    · simp [List.append_assoc]
  · rfl

theorem processSegment_claims (st : ParseState) (cs : List Claim) (fields : List String) :
    processSegment { st with claims := cs ++ st.claims } fields =
      { processSegment st fields with claims := cs ++ (processSegment st fields).claims } := by
  obtain ⟨cls, cc, so, hl⟩ := st
  unfold processSegment
  dsimp only
  split_ifs with h1 h2 h3 h4 h5 h6 h7 h8
  · exact onHL_claims ⟨cls, cc, so, hl⟩ cs fields
  · exact withClaim_claims ⟨cls, cc, so, hl⟩ cs _
  · exact withClaim_claims ⟨cls, cc, so, hl⟩ cs _
  · exact withClaim_claims ⟨cls, cc, so, hl⟩ cs _
  · exact withClaim_claims ⟨cls, cc, so, hl⟩ cs _
  · exact withClaim_claims ⟨cls, cc, so, hl⟩ cs _
  · exact withClaim_claims ⟨cls, cc, so, hl⟩ cs _
  · cases cc <;> rfl
  · rfl

theorem procLine_claims (st : ParseState) (cs : List Claim) (line : List Char) :
    procLine { st with claims := cs ++ st.claims } line =
      { procLine st line with claims := cs ++ (procLine st line).claims } := by
  unfold procLine
  dsimp only
  split_ifs with h1
  · rfl
  · exact processSegment_claims st cs _

theorem foldl_procLine_claims (lines : List (List Char)) :
    ∀ (st : ParseState) (cs : List Claim),
    lines.foldl procLine { st with claims := cs ++ st.claims } =
      { lines.foldl procLine st with claims := cs ++ (lines.foldl procLine st).claims } := by
  induction lines with
  | nil => intro st cs; rfl
  | cons l ls ih =>
    intro st cs
    show ls.foldl procLine (procLine { st with claims := cs ++ st.claims } l) = _
    rw [procLine_claims st cs l]
    exact ih (procLine st l) cs

theorem parseFold_claims (content : String) (cs : List Claim) :
    parseFold content cs =
      { parseFold content [] with claims := cs ++ (parseFold content []).claims } := by
  unfold parseFold
  have h0 : ({ initState with claims := cs } : ParseState) =
      { initState with claims := cs ++ initState.claims } := by
    simp [initState]
  rw [h0]
  exact foldl_procLine_claims _ initState cs

/-- Claim C3: decoding is a pure function of the input text.  Two decode
calls, each constructing a fresh `X12ClaimParser` as the services do
(`claim_service.py:419`), return structurally identical claim lists;
`__init__` resets the `claims` accumulator to `[]`, and a `parse` run started
from a non-empty accumulator would merely prepend it unchanged — so no state
accumulates across decode calls and the second decode returns exactly the
first list. -/
theorem decode_pure_idempotent (t : String) :
    (X12ClaimParser.init t).parse.1 = (X12ClaimParser.init t).parse.1 ∧
    (X12ClaimParser.init t).claims = [] ∧
    ∀ prior : List Claim, (X12ClaimParser.mk t prior).parse.1 = prior ++ decode t := by
  refine ⟨rfl, rfl, fun prior => ?_⟩
  show commitFinal (parseFold t prior) = prior ++ commitFinal (parseFold t [])
  rw [parseFold_claims t prior]
  unfold commitFinal
  obtain ⟨cls, cc, so, hl⟩ : ParseState := parseFold t []
  cases cc
  · rfl
  · simp [List.append_assoc]

/-! ## Payer resolver (`payer_lookup.py` / `claim_service.py`, identical logic) -/

/-- Model of the Python regex `\w` class over ASCII: letters, digits, `_`. -/
def isWordChar (c : Char) : Bool := c.isAlphanum || c = '_'

/-- First substitution of `_normalize_name`: `re.sub(r"[^\w\s]", " ", name)`. -/
def subNonWord (l : List Char) : List Char :=
  l.map (fun c => if isWordChar c || isWs c then c else ' ')

/-- Second substitution of `_normalize_name`: `re.sub(r"\s+", " ", ...)` —
collapse every whitespace run to a single space. -/
def collapseWs : Bool → List Char → List Char
  | _, [] => []
  | prevWs, c :: cs =>
    if isWs c then
      if prevWs then collapseWs true cs else ' ' :: collapseWs true cs
    else c :: collapseWs false cs

/-- `_normalize_name`: substitute, collapse, strip, uppercase. -/
def normalizeName (name : String) : String :=
  ((stripL (collapseWs false (subNonWord name.data))).map Char.toUpper).asString

/-- Python `str.split()` on a normalized name (whitespace is a single space). -/
def wordsOf (s : String) : List String :=
  ((splitOnChar ' ' s.data).filter (fun w => w ≠ [])).map List.asString

/-- The stop-word set of `_extract_keywords`. -/
def commonWords : List String :=
  ["OF", "THE", "AND", "A", "AN", "IN", "FOR", "ON", "AT", "TO", "BY"]

/-- `_extract_keywords`: words of the normalized name of length ≥ 2 that are
not stop words (a Python `set`, modelled as a deduplicated list). -/
def extractKeywords (name : String) : List String :=
  ((wordsOf (normalizeName name)).filter
    (fun w => 2 ≤ w.length ∧ w ∉ commonWords)).dedup

/-- One payer directory row as handed to the matcher
(`PrimaryPayerId`, `DisplayName`, `Aliases`). -/
structure PayerRecord where
  PrimaryPayerId : String
  DisplayName : String
  Aliases : String
deriving DecidableEq, Repr

/-- Strategy 1: exact match — the `DisplayName` column is filtered over all
rows before the `Aliases` column, and the first row of the first non-empty
filter wins (`.iloc[0]`). -/
def exactStage (np : String) (records : List PayerRecord) : Option String :=
  match records.find? (fun r => normalizeName r.DisplayName = np) with
  | some r => some r.PrimaryPayerId
  | none =>
    (records.find? (fun r => normalizeName r.Aliases = np)).map
      (fun r => r.PrimaryPayerId)

/-- Strategy 2: substring match — `normalized_payor in normalize(candidate)`
(one direction only), `DisplayName` column before `Aliases` column. -/
def containsStage (np : String) (records : List PayerRecord) : Option String :=
  match records.find? (fun r => isSubstr np (normalizeName r.DisplayName)) with
  | some r => some r.PrimaryPayerId
  | none =>
    (records.find? (fun r => isSubstr np (normalizeName r.Aliases))).map
      (fun r => r.PrimaryPayerId)

/-- `len(keywords & value_keywords)` for one candidate field. -/
def keywordScore (kw : List String) (value : String) : Nat :=
  ((extractKeywords value).filter (fun w => w ∈ kw)).length

/-- Combined `match_score` of a row: `DisplayName` score plus `Aliases` score. -/
def rowScore (kw : List String) (r : PayerRecord) : Nat :=
  keywordScore kw r.DisplayName + keywordScore kw r.Aliases

/-- Strategy 3: keyword match — first row attaining the maximum score, if
that maximum is positive. -/
def keywordStage (kw : List String) (records : List PayerRecord) : String :=
  let maxScore := (records.map (rowScore kw)).foldl Nat.max 0
  match records.find? (fun r => rowScore kw r = maxScore) with
  | some r => if 0 < rowScore kw r then r.PrimaryPayerId else ""
  | none => ""

/-- `get_trading_partner_id`: empty directory result short-circuits to `""`;
otherwise exact match, then substring match, then keyword match, first
success winning. -/
def get_trading_partner_id (payor_name : String) (records : List PayerRecord) : String :=
  if records.isEmpty then ""
  else
    let normalized_payor := normalizeName payor_name
    let payor_keywords := extractKeywords payor_name
    match exactStage normalized_payor records with
    | some pid => pid
    | none =>
      match containsStage normalized_payor records with
      | some pid => pid
      | none => keywordStage payor_keywords records

/-- The candidate set of spec §8's exact-match property. -/
def recsC9 : List PayerRecord := [⟨"A", "AETNA HEALTH", ""⟩, ⟨"B", "AETNA", ""⟩]

/-- Claim C9: matching is staged exact-then-substring-then-keyword with first
success winning: on `recsC9` with input `"AETNA"` the exact stage returns
`"B"` and the resolver returns `"B"`, although the substring stage alone
would have returned `"A"` (record A first). -/
theorem resolver_exact_beats_substring :
    get_trading_partner_id "AETNA" recsC9 = "B" ∧
    exactStage (normalizeName "AETNA") recsC9 = some "B" ∧
    containsStage (normalizeName "AETNA") recsC9 = some "A" := by
  decide

/-- The single-record candidate set for the substring-direction counterexample. -/
def recsC2 : List PayerRecord := [⟨"A", "AET", "X"⟩]

/-- Claim C2 counterexample: for input `"AETNA"` and candidate DisplayName
`"AET"`, the normalized candidate is a substring of the normalized input, yet
the second stage finds no match — the code checks only
`normalized_input in normalized_candidate`, not the reverse direction. -/
theorem substring_match_one_direction_only :
    containsStage (normalizeName "AETNA") recsC2 = none ∧
    isSubstr (normalizeName "AET") (normalizeName "AETNA") = true := by
  decide

theorem find?_cons_pos {α : Type} (p : α → Bool) (a : α) (l : List α) (h : p a = true) :
    List.find? p (a :: l) = some a := by
  simp [List.find?_cons, h]

theorem containsStage_first_display (name : String) (pre : List PayerRecord)
    (r : PayerRecord) (post : List PayerRecord)
    (hr : isSubstr (normalizeName name) (normalizeName r.DisplayName) = true)
    (hpre : ∀ r' ∈ pre, isSubstr (normalizeName name) (normalizeName r'.DisplayName) = false) :
    containsStage (normalizeName name) (pre ++ r :: post) = some r.PrimaryPayerId := by
  unfold containsStage
  have h1 : pre.find? (fun x => isSubstr (normalizeName name) (normalizeName x.DisplayName)) =
      none := by
    rw [List.find?_eq_none]
    intro x hx
    simp [hpre x hx]
  have h2 : (pre ++ r :: post).find?
      (fun x => isSubstr (normalizeName name) (normalizeName x.DisplayName)) = some r := by
    rw [List.find?_append, h1,
      find?_cons_pos (fun x => isSubstr (normalizeName name) (normalizeName x.DisplayName)) r post hr]
    rfl
  rw [h2]

theorem containsStage_first_aliases (name : String) (pre : List PayerRecord)
    (r : PayerRecord) (post : List PayerRecord)
    (hnod : ∀ r' ∈ pre ++ r :: post,
      isSubstr (normalizeName name) (normalizeName r'.DisplayName) = false)
    (hr : isSubstr (normalizeName name) (normalizeName r.Aliases) = true)
    (hpre : ∀ r' ∈ pre, isSubstr (normalizeName name) (normalizeName r'.Aliases) = false) :
    containsStage (normalizeName name) (pre ++ r :: post) = some r.PrimaryPayerId := by
  unfold containsStage
  have h1 : (pre ++ r :: post).find?
      (fun x => isSubstr (normalizeName name) (normalizeName x.DisplayName)) = none := by
    rw [List.find?_eq_none]
    intro x hx
    simp [hnod x hx]
  have h2 : pre.find? (fun x => isSubstr (normalizeName name) (normalizeName x.Aliases)) =
      none := by
    rw [List.find?_eq_none]
    intro x hx
    simp [hpre x hx]
  have h3 : (pre ++ r :: post).find?
      (fun x => isSubstr (normalizeName name) (normalizeName x.Aliases)) = some r := by
    rw [List.find?_append, h2,
      find?_cons_pos (fun x => isSubstr (normalizeName name) (normalizeName x.Aliases)) r post hr]
    rfl
  rw [h1, h3]
  rfl

/-- Claim C2 (amended): the second matching stage succeeds iff the normalized
input name is a substring of some record's normalized DisplayName or Aliases
(one direction only; the reverse direction is not checked), and the returned
id is the first matching record's in column-major order: the first record
whose DisplayName matches — regardless of any earlier record's Aliases —
else, when no DisplayName matches, the first record whose Aliases matches. -/
theorem containsStage_characterization (name : String) (records : List PayerRecord) :
    ((containsStage (normalizeName name) records).isSome ↔
      ∃ r ∈ records,
        isSubstr (normalizeName name) (normalizeName r.DisplayName) = true ∨
        isSubstr (normalizeName name) (normalizeName r.Aliases) = true) ∧
    (∀ pid, containsStage (normalizeName name) records = some pid →
      ∃ r ∈ records, r.PrimaryPayerId = pid ∧
        (isSubstr (normalizeName name) (normalizeName r.DisplayName) = true ∨
         isSubstr (normalizeName name) (normalizeName r.Aliases) = true)) ∧
    (∀ (pre : List PayerRecord) (r : PayerRecord) (post : List PayerRecord),
      records = pre ++ r :: post →
      isSubstr (normalizeName name) (normalizeName r.DisplayName) = true →
      (∀ r' ∈ pre, isSubstr (normalizeName name) (normalizeName r'.DisplayName) = false) →
      containsStage (normalizeName name) records = some r.PrimaryPayerId) ∧
    (∀ (pre : List PayerRecord) (r : PayerRecord) (post : List PayerRecord),
      records = pre ++ r :: post →
      (∀ r' ∈ records, isSubstr (normalizeName name) (normalizeName r'.DisplayName) = false) →
      isSubstr (normalizeName name) (normalizeName r.Aliases) = true →
      (∀ r' ∈ pre, isSubstr (normalizeName name) (normalizeName r'.Aliases) = false) →
      containsStage (normalizeName name) records = some r.PrimaryPayerId) := by
  have hmain : ((containsStage (normalizeName name) records).isSome ↔
      ∃ r ∈ records,
        isSubstr (normalizeName name) (normalizeName r.DisplayName) = true ∨
        isSubstr (normalizeName name) (normalizeName r.Aliases) = true) ∧
      (∀ pid, containsStage (normalizeName name) records = some pid →
        ∃ r ∈ records, r.PrimaryPayerId = pid ∧
          (isSubstr (normalizeName name) (normalizeName r.DisplayName) = true ∨
           isSubstr (normalizeName name) (normalizeName r.Aliases) = true)) := by
    unfold containsStage
    rcases hd : records.find?
        (fun r => isSubstr (normalizeName name) (normalizeName r.DisplayName)) with _ | r
    all_goals rw [hd]
    · rcases ha : records.find?
          (fun r => isSubstr (normalizeName name) (normalizeName r.Aliases)) with _ | r
      all_goals rw [ha]
      · constructor
        · simp only [Option.map_none', Option.isSome_none, Bool.false_eq_true, false_iff]
          rintro ⟨r, hr, hor | hor⟩
          · exact absurd hor (List.find?_eq_none.mp hd r hr)
          · exact absurd hor (List.find?_eq_none.mp ha r hr)
        · intro pid hpid
          simp at hpid
      · constructor
        · simp only [Option.map_some', Option.isSome_some, true_iff]
          exact ⟨r, List.mem_of_find?_eq_some ha, Or.inr (by simpa using List.find?_some ha)⟩
        · intro pid hpid
          simp only [Option.map_some', Option.some.injEq] at hpid
          exact ⟨r, List.mem_of_find?_eq_some ha, hpid, Or.inr (by simpa using List.find?_some ha)⟩
    · constructor
      · simp only [Option.isSome_some, true_iff]
        exact ⟨r, List.mem_of_find?_eq_some hd, Or.inl (by simpa using List.find?_some hd)⟩
      · intro pid hpid
        simp only [Option.some.injEq] at hpid
        exact ⟨r, List.mem_of_find?_eq_some hd, hpid, Or.inl (by simpa using List.find?_some hd)⟩
  refine ⟨hmain.1, hmain.2, ?_, ?_⟩
  · intro pre r post heq hr hpre
    subst heq
    exact containsStage_first_display name pre r post hr hpre
  · intro pre r post heq hnod hr hpre
    subst heq
    exact containsStage_first_aliases name pre r post hnod hr hpre

/-- A candidate set where the first record matches only on Aliases and the
second on DisplayName: column-major order returns the second record. -/
def recsC2w : List PayerRecord := [⟨"A", "ZZZ", "AETNA PLAN"⟩, ⟨"B", "AETNA HEALTH", ""⟩]

/-- Witness for `containsStage_characterization`: the stage succeeds on
`recsC2w`, and returns `"B"` — the first DisplayName match — although the
earlier record's Aliases also match. -/
theorem containsStage_characterization_witness :
    (containsStage (normalizeName "AETNA") recsC2w).isSome ∧
    containsStage (normalizeName "AETNA") recsC2w = some "B" :=
  ⟨(containsStage_characterization "AETNA" recsC2w).1.mpr
      ⟨⟨"B", "AETNA HEALTH", ""⟩, by decide, Or.inl (by decide)⟩,
   (containsStage_characterization "AETNA" recsC2w).2.2.1
      [⟨"A", "ZZZ", "AETNA PLAN"⟩] ⟨"B", "AETNA HEALTH", ""⟩ [] rfl (by decide) (by decide)⟩

/-- The candidate set for the empty-normalized-input counterexample: the
second record's `Aliases` is the empty string (as `get_payers_from_db`
produces with `payer.Aliases or ''`). -/
def recsC10 : List PayerRecord := [⟨"A", "AETNA", "BLUE CROSS"⟩, ⟨"B", "CIGNA", ""⟩]

/-- Claim C10 counterexample: the input `"???"` normalizes to `""`, and with a
non-empty candidate set the resolver returns `"B"` — the *exact* stage fires
first on the second record's empty Aliases (`normalize("") == ""`), so the
first record's id `"A"` is not returned and the substring stage is never
reached. -/
theorem empty_input_not_first_record :
    normalizeName "???" = "" ∧
    get_trading_partner_id "???" recsC10 = "B" ∧
    (recsC10.headD ⟨"", "", ""⟩).PrimaryPayerId = "A" := by
  decide

theorem contSub_nil (hay : List Char) : contSub [] hay = true := by
  cases hay <;> rfl

theorem isSubstr_empty (s : String) : isSubstr "" s = true := contSub_nil s.data


/-- Claim C10 (amended): for an input that normalizes to the empty string and
a non-empty candidate set in which no DisplayName or Aliases itself
normalizes to empty, the exact stage fails, the substring stage trivially
succeeds on the first record (the empty string is a substring of
everything), and the first record's canonical id is returned. -/
theorem resolver_empty_input_first_record (name : String) (records : List PayerRecord)
    (hne : records ≠ [])
    (hnorm : normalizeName name = "")
    (hcand : ∀ r ∈ records, normalizeName r.DisplayName ≠ "" ∧ normalizeName r.Aliases ≠ "") :
    get_trading_partner_id name records = (records.headD ⟨"", "", ""⟩).PrimaryPayerId ∧
    containsStage (normalizeName name) records =
      some (records.headD ⟨"", "", ""⟩).PrimaryPayerId := by
  obtain ⟨r, rs, rfl⟩ : ∃ r rs, records = r :: rs := by
    cases records with
    | nil => exact absurd rfl hne
    | cons a l => exact ⟨a, l, rfl⟩
  have hex : exactStage (normalizeName name) (r :: rs) = none := by
    unfold exactStage
    have hd : (r :: rs).find?
        (fun x => decide (normalizeName x.DisplayName = normalizeName name)) = none := by
      rw [List.find?_eq_none]
      intro x hx
      simp only [hnorm, decide_eq_true_eq]
      exact (hcand x hx).1
    have ha : (r :: rs).find?
        (fun x => decide (normalizeName x.Aliases = normalizeName name)) = none := by
      rw [List.find?_eq_none]
      intro x hx
      simp only [hnorm, decide_eq_true_eq]
      exact (hcand x hx).2
    rw [hd, ha]
    rfl
  have hcon : containsStage (normalizeName name) (r :: rs) =
      some ((r :: rs).headD ⟨"", "", ""⟩).PrimaryPayerId := by
    unfold containsStage
    rw [find?_cons_pos (fun x => isSubstr (normalizeName name) (normalizeName x.DisplayName)) r rs
      (by rw [hnorm]; exact isSubstr_empty _)]
    rfl
  refine ⟨?_, hcon⟩
  unfold get_trading_partner_id
  rw [if_neg (by simp)]
  dsimp only
  rw [hex, hcon]

/-- The record list for the witness of `resolver_empty_input_first_record`. -/
def recsC10w : List PayerRecord := [⟨"A", "AETNA", "X9"⟩]

/-- Witness for `resolver_empty_input_first_record` at input `"???"`. -/
theorem resolver_empty_input_first_record_witness :
    get_trading_partner_id "???" recsC10w = (recsC10w.headD ⟨"", "", ""⟩).PrimaryPayerId ∧
    containsStage (normalizeName "???") recsC10w =
      some (recsC10w.headD ⟨"", "", ""⟩).PrimaryPayerId :=
  resolver_empty_input_first_record "???" recsC10w (by decide) (by decide)
    (by decide)

/-! ## Batch engine, processor side (`processor.py`) -/

/-- One response dict as produced by `_make_request`. -/
structure PResp where
  status_code : Nat
  success : Bool
  body : Option String
  error : Option String
deriving DecidableEq, Repr

/-- The error dict substituted for a missing slot (`"Request failed"`). -/
def failedResp : PResp :=
  { status_code := 0, success := false, body := none, error := some "Request failed" }

/-- One step of the result-placement loop: exception entries are skipped,
tuple entries are written at their carried index. -/
def scatterStep (arr : List (Option PResp)) : Option (Nat × PResp) → List (Option PResp)
  | none => arr
  | some (i, r) => arr.set i (some r)

/-- The tuple-only version of `scatterStep`. -/
def setResp (arr : List (Option PResp)) (p : Nat × PResp) : List (Option PResp) :=
  arr.set p.1 (some p.2)

/-- `send_requests_concurrent` after `asyncio.gather`: place each completed
result at its original index in a `None`-initialised array of size `n`, then
replace remaining `None`s with the error response. -/
def send_requests_concurrent (n : Nat) (completed : List (Option (Nat × PResp))) :
    List PResp :=
  (completed.foldl scatterStep (List.replicate n none)).map (fun o => o.getD failedResp)

theorem get?_set_self {α : Type} :
    ∀ (l : List α) (i : Nat) (a : α), i < l.length → (l.set i a).get? i = some a := by
  intro l
  induction l with
  | nil => intro i a h; simp at h
  | cons x xs ih =>
    intro i a h
    cases i with
    | zero => rfl
    | succ n => exact ih n a (Nat.lt_of_succ_lt_succ h)

theorem get?_set_other {α : Type} :
    ∀ (l : List α) (i j : Nat) (a : α), i ≠ j → (l.set i a).get? j = l.get? j := by
  intro l
  induction l with
  | nil => intro i j a _; simp
  | cons x xs ih =>
    intro i j a hij
    cases i with
    | zero =>
      cases j with
      | zero => exact absurd rfl hij
      | succ m => rfl
    | succ n =>
      cases j with
      | zero => rfl
      | succ m => exact ih n m a (fun h => hij (by rw [h]))

theorem length_foldl_setResp :
    ∀ (l : List (Nat × PResp)) (arr : List (Option PResp)),
    (l.foldl setResp arr).length = arr.length := by
  intro l
  induction l with
  | nil => intro arr; rfl
  | cons p ps ih =>
    intro arr
    show (ps.foldl setResp (setResp arr p)).length = arr.length
    rw [ih (setResp arr p)]
    exact List.length_set arr p.1 (some p.2)

theorem get?_foldl_setResp_not_mem :
    ∀ (l : List (Nat × PResp)) (j : Nat), j ∉ l.map Prod.fst →
    ∀ arr : List (Option PResp), (l.foldl setResp arr).get? j = arr.get? j := by
  intro l
  induction l with
  | nil => intro j _ arr; rfl
  | cons p ps ih =>
    intro j hj arr
    have hj1 : p.1 ≠ j := fun h => hj (by simp [h.symm])
    have hj2 : j ∉ ps.map Prod.fst := fun h => hj (by simp [h])
    show (ps.foldl setResp (setResp arr p)).get? j = arr.get? j
    rw [ih j hj2 (setResp arr p)]
    exact get?_set_other arr p.1 j (some p.2) hj1

theorem get?_foldl_setResp_mem :
    ∀ (l : List (Nat × PResp)) (j : Nat) (r : PResp),
    (l.map Prod.fst).Nodup → (j, r) ∈ l →
    ∀ arr : List (Option PResp), j < arr.length →
    (l.foldl setResp arr).get? j = some (some r) := by
  intro l
  induction l with
  | nil => intro j r _ hmem; simp at hmem
  | cons p ps ih =>
    intro j r hnd hmem arr hlt
    have hnd2 : (p.1 :: ps.map Prod.fst).Nodup := by
      rw [List.map_cons] at hnd; exact hnd
    rcases List.mem_cons.mp hmem with heq | hmem'
    · subst heq
      show (ps.foldl setResp (setResp arr (j, r))).get? j = some (some r)
      have hj : j ∉ ps.map Prod.fst := (List.nodup_cons.mp hnd2).1
      rw [get?_foldl_setResp_not_mem ps j hj]
      exact get?_set_self arr j (some r) hlt
    · show (ps.foldl setResp (setResp arr p)).get? j = some (some r)
      have hnd' : (ps.map Prod.fst).Nodup := (List.nodup_cons.mp hnd2).2
      refine ih j r hnd' hmem' (setResp arr p) ?_
      show j < (arr.set p.1 (some p.2)).length
      rw [List.length_set]
      exact hlt

theorem foldl_scatter_eq_setResp (l : List (Nat × PResp)) (arr : List (Option PResp)) :
    (l.map some).foldl scatterStep arr = l.foldl setResp arr := by
  rw [List.foldl_map]
  have hfun : (fun a p => scatterStep a (some p)) = setResp := by
    funext a p
    rcases p with ⟨i, r⟩
    rfl
  rw [hfun]

theorem processor_index_lemma (n : Nat) (f : Nat → PResp) (l : List (Nat × PResp))
    (hperm : l.Perm ((List.range n).map fun i => (i, f i))) :
    send_requests_concurrent n (l.map some) = (List.range n).map f := by
  have hmapfst : (((List.range n).map fun i => (i, f i)).map Prod.fst) = List.range n := by
    rw [List.map_map]
    show (List.range n).map (fun i => i) = List.range n
    exact List.map_id _
  have hnd : (l.map Prod.fst).Nodup := by
    have h2 := hperm.map Prod.fst
    rw [hmapfst] at h2
    exact h2.nodup_iff.mpr (List.nodup_range n)
  unfold send_requests_concurrent
  rw [foldl_scatter_eq_setResp]
  apply List.ext_get?
  intro j
  rw [List.get?_map, List.get?_map]
  by_cases hj : j < n
  · have hmem : (j, f j) ∈ l :=
      hperm.mem_iff.mpr (List.mem_map.mpr ⟨j, List.mem_range.mpr hj, rfl⟩)
    rw [get?_foldl_setResp_mem l j (f j) hnd hmem _
      (by rw [List.length_replicate]; exact hj)]
    rw [List.get?_range hj]
    rfl
  · have h1 : (l.foldl setResp (List.replicate n none)).get? j = none := by
      apply List.get?_eq_none.mpr
      rw [length_foldl_setResp, List.length_replicate]
      omega
    have h2 : (List.range n).get? j = none := by
      apply List.get?_eq_none.mpr
      rw [List.length_range]
      omega
    rw [h1, h2]
    rfl

/-! ## Batch engine, claim_service side (`claim_service.py`,
`submit_claim_status_requests`) -/

/-- One enriched output row (the five columns added to the DataFrame). -/
structure CRow where
  claim_status : String
  denial_category : String
  denial_code : String
  denial_reason : String
  final_steps : String
deriving DecidableEq, Repr

/-- The default row as initialised by `generate_payloads_from_csv`. -/
def emptyRow : CRow := ⟨"", "", "", "", ""⟩

/-- A decoded response body: HTTP status (`None` on transport error), the
`x12` payload (`""` models a falsy/absent value), the optional
`claims[0].claimStatus.statusCode`, and the `message`/`error` fields. -/
structure CResp where
  status_code : Option Nat
  x12 : String
  hasClaims : Bool
  claimStatusCode : String
  message : Option String
  error : Option String
deriving DecidableEq, Repr

/-- One completed `asyncio.gather` entry: an exception, or the
`(index, payload, response)` tuple from `_make_claim_status_request`. -/
inductive COutcome where
  | exn (msg : String)
  | resp (index : Nat) (payload : String) (response : CResp)
deriving DecidableEq, Repr

/-- One `failed_requests` entry (exceptions carry no request payload). -/
structure CFailure where
  request_payload : Option String
  error : String
  status_code : Option Nat
deriving DecidableEq, Repr

/-- One `results` entry. -/
structure CResult where
  request_payload : String
  claim_status : String
deriving DecidableEq, Repr

/-- One `Code_Mapping.csv` row. -/
structure DenialRow where
  DenialCode : String
  DenialCategory : String
  DenialReason : String
  FinalSteps : String
deriving DecidableEq, Repr

/-- The mutable `denial_data` dict (initially `{}`, i.e. all lookups `''`). -/
structure DenialData where
  category : String
  reason : String
  steps : String
deriving DecidableEq, Repr

/-- The loop state of `submit_claim_status_requests`. -/
structure CState where
  results : List CResult
  failures : List CFailure
  df : List CRow
  denialData : DenialData
deriving DecidableEq, Repr

/-- `df.iloc[index, col] = value`, modelled as an in-range row update. -/
def updateRow : List CRow → Nat → (CRow → CRow) → List CRow
  | [], _, _ => []
  | r :: rs, 0, f => f r :: rs
  | r :: rs, n + 1, f => r :: updateRow rs n f

/-- `response.get('data', {}).get("message", response.get("error", "Unknown error"))`. -/
def bestErrMsg (r : CResp) : String := r.message.getD (r.error.getD "Unknown error")

/-- Process one completed entry: exceptions and non-200 responses go to
`failed_requests` (the latter also set the row's sentinel status), missing
`x12` goes to `failed_requests` leaving the row blank, and a decodable
response renders the status text, optionally fills the denial columns from
the (stateful) `denial_data`, and appends to `results`. -/
def processOutcome (render : String → String) (table : List DenialRow) (st : CState) :
    COutcome → CState
  | .exn msg => { st with failures := st.failures ++ [⟨none, msg, none⟩] }
  | .resp index payload r =>
    if r.status_code ≠ some 200 then
      { st with
        failures := st.failures ++ [⟨some payload, bestErrMsg r, r.status_code⟩],
        df := updateRow st.df index
          (fun row => { row with claim_status := "Payer not supported" }) }
    else if r.x12 = "" then
      { st with
        failures := st.failures ++ [⟨some payload, "No x12 data in response", r.status_code⟩] }
    else
      let claim_status_value := render r.x12
      let step :=
        if r.hasClaims then
          let code := stripStr r.claimStatusCode
          let dd' : DenialData :=
            match table.find? (fun row => stripStr row.DenialCode = code) with
            | some row => ⟨row.DenialCategory, row.DenialReason, row.FinalSteps⟩
            | none => st.denialData
          (updateRow st.df index (fun row =>
            { row with denial_code := r.claimStatusCode,
                       denial_category := dd'.category,
                       denial_reason := dd'.reason,
                       final_steps := dd'.steps }), dd')
        else (st.df, st.denialData)
      { results := st.results ++ [⟨payload, claim_status_value⟩],
        failures := st.failures,
        df := updateRow step.1 index
          (fun row => { row with claim_status := claim_status_value }),
        denialData := step.2 }

/-- The `for result in completed_results` loop. -/
def submitFold (render : String → String) (table : List DenialRow) :
    CState → List COutcome → CState
  | st, [] => st
  | st, o :: os => submitFold render table (processOutcome render table st o) os

/-- `submit_claim_status_requests`: fold the completed entries over the fresh
loop state and return `(results, failed_requests, df)`. -/
def submit_claim_status_requests (render : String → String) (table : List DenialRow)
    (outcomes : List COutcome) (df0 : List CRow) :
    List CResult × List CFailure × List CRow :=
  let fin := submitFold render table ⟨[], [], df0, ⟨"", "", ""⟩⟩ outcomes
  (fin.results, fin.failures, fin.df)

/-- The record index carried by a completed entry. -/
def outIdx : COutcome → Option Nat
  | .exn _ => none
  | .resp i _ _ => some i

/-- The failure entry (if any) an outcome contributes. -/
def failureOf : COutcome → Option CFailure
  | .exn msg => some ⟨none, msg, none⟩
  | .resp _ p r =>
    if r.status_code ≠ some 200 then some ⟨some p, bestErrMsg r, r.status_code⟩
    else if r.x12 = "" then some ⟨some p, "No x12 data in response", r.status_code⟩
    else none

/-- The `claim_status` text an outcome leaves on its own row. -/
def statusEffect (render : String → String) (r : CResp) (prev : String) : String :=
  if r.status_code ≠ some 200 then "Payer not supported"
  else if r.x12 = "" then prev
  else render r.x12

theorem updateRow_length :
    ∀ (df : List CRow) (i : Nat) (f : CRow → CRow), (updateRow df i f).length = df.length := by
  intro df
  induction df with
  | nil => intro i f; rfl
  | cons r rs ih =>
    intro i f
    cases i with
    | zero => rfl
    | succ n => show (r :: updateRow rs n f).length = _; simp [ih n f]

theorem updateRow_get?_ne :
    ∀ (df : List CRow) (i j : Nat) (f : CRow → CRow), i ≠ j →
    (updateRow df i f).get? j = df.get? j := by
  intro df
  induction df with
  | nil => intro i j f _; rfl
  | cons r rs ih =>
    intro i j f hij
    cases i with
    | zero =>
      cases j with
      | zero => exact absurd rfl hij
      | succ m => rfl
    | succ n =>
      cases j with
      | zero => rfl
      | succ m => exact ih n m f (fun h => hij (by rw [h]))

theorem updateRow_get?_self :
    ∀ (df : List CRow) (i : Nat) (f : CRow → CRow),
    (updateRow df i f).get? i = (df.get? i).map f := by
  intro df
  induction df with
  | nil => intro i f; rfl
  | cons r rs ih =>
    intro i f
    cases i with
    | zero => rfl
    | succ n => exact ih n f

theorem processOutcome_df_length (render : String → String) (table : List DenialRow)
    (st : CState) (o : COutcome) :
    (processOutcome render table st o).df.length = st.df.length := by
  cases o with
  | exn msg => rfl
  | resp i p r =>
    rw [processOutcome]
    split_ifs with h1 h2 h3 <;>
      simp only [updateRow_length]

theorem processOutcome_get?_ne (render : String → String) (table : List DenialRow)
    (st : CState) (o : COutcome) (j : Nat) (hj : outIdx o ≠ some j) :
    (processOutcome render table st o).df.get? j = st.df.get? j := by
  cases o with
  | exn msg => rfl
  | resp i p r =>
    have hij : i ≠ j := fun h => hj (by rw [outIdx, h])
    rw [processOutcome]
    split_ifs with h1 h2 h3 <;>
      simp only [updateRow_get?_ne _ _ _ _ hij]

theorem processOutcome_failures (render : String → String) (table : List DenialRow)
    (st : CState) (o : COutcome) :
    (processOutcome render table st o).failures = st.failures ++ (failureOf o).toList := by
  cases o with
  | exn msg => rfl
  | resp i p r =>
    rw [processOutcome, failureOf]
    split_ifs with h1 h2 <;> simp

theorem processOutcome_status_self (render : String → String) (table : List DenialRow)
    (st : CState) (i : Nat) (p : String) (r : CResp) :
    ((processOutcome render table st (.resp i p r)).df.get? i).map (fun row => row.claim_status) =
      (st.df.get? i).map (fun row => statusEffect render r row.claim_status) := by
  rw [processOutcome]
  unfold statusEffect
  split_ifs with h1 h2 h3 <;>
    simp only [updateRow_get?_self, Option.map_map, Function.comp] <;> rfl

theorem submitFold_df_length (render : String → String) (table : List DenialRow) :
    ∀ (os : List COutcome) (st : CState),
    (submitFold render table st os).df.length = st.df.length := by
  intro os
  induction os with
  | nil => intro st; rfl
  | cons o os ih =>
    intro st
    show (submitFold render table (processOutcome render table st o) os).df.length = _
    rw [ih, processOutcome_df_length]

theorem submitFold_failures (render : String → String) (table : List DenialRow) :
    ∀ (os : List COutcome) (st : CState),
    (submitFold render table st os).failures = st.failures ++ os.filterMap failureOf := by
  intro os
  induction os with
  | nil => intro st; simp [submitFold]
  | cons o os ih =>
    intro st
    show (submitFold render table (processOutcome render table st o) os).failures = _
    rw [ih, processOutcome_failures, List.filterMap_cons]
    rcases failureOf o with _ | e <;> simp

theorem submitFold_df_untouched (render : String → String) (table : List DenialRow) :
    ∀ (os : List COutcome) (st : CState) (j : Nat),
    (∀ o ∈ os, outIdx o ≠ some j) →
    (submitFold render table st os).df.get? j = st.df.get? j := by
  intro os
  induction os with
  | nil => intro st j _; rfl
  | cons o os ih =>
    intro st j hj
    show (submitFold render table (processOutcome render table st o) os).df.get? j = _
    rw [ih _ j (fun o' ho' => hj o' (List.mem_cons_of_mem _ ho'))]
    exact processOutcome_get?_ne render table st o j (hj o (List.mem_cons_self _ _))

theorem submitFold_status (render : String → String) (table : List DenialRow) :
    ∀ (os : List COutcome) (st : CState) (j : Nat),
    (os.filterMap outIdx).Nodup →
    ((submitFold render table st os).df.get? j).map (fun row => row.claim_status) =
      (match os.find? (fun o => outIdx o == some j) with
       | some (.resp _ _ r) =>
         (st.df.get? j).map (fun row => statusEffect render r row.claim_status)
       | _ => (st.df.get? j).map (fun row => row.claim_status)) := by
  intro os
  induction os with
  | nil => intro st j _; rfl
  | cons o os ih =>
    intro st j hnd
    cases o with
    | exn msg =>
      have hpred : (outIdx (COutcome.exn msg) == some j) = false := rfl
      rw [List.find?_cons_of_neg _ (by simp [hpred])]
      have hnd' : (os.filterMap outIdx).Nodup := by
        simpa [List.filterMap_cons, outIdx] using hnd
      show ((submitFold render table (processOutcome render table st (.exn msg)) os).df.get? j).map _ = _
      rw [ih _ j hnd']
      rfl
    | resp i p r =>
      have hnd2 : (i :: os.filterMap outIdx).Nodup := by
        simpa [List.filterMap_cons, outIdx] using hnd
      by_cases hij : i = j
      · subst hij
        rw [List.find?_cons_of_pos _ (by simp [outIdx])]
        have hnotin : ∀ o' ∈ os, outIdx o' ≠ some i := by
          intro o' ho' hcon
          have : i ∈ os.filterMap outIdx := List.mem_filterMap.mpr ⟨o', ho', hcon⟩
          exact (List.nodup_cons.mp hnd2).1 this
        show ((submitFold render table (processOutcome render table st (.resp i p r)) os).df.get? i).map _ = _
        rw [submitFold_df_untouched render table os _ i hnotin]
        exact processOutcome_status_self render table st i p r
      · rw [List.find?_cons_of_neg _ (by simp [outIdx, hij])]
        have hnd' : (os.filterMap outIdx).Nodup := (List.nodup_cons.mp hnd2).2
        show ((submitFold render table (processOutcome render table st (.resp i p r)) os).df.get? j).map _ = _
        rw [ih _ j hnd']
        have hrow : (processOutcome render table st (.resp i p r)).df.get? j = st.df.get? j :=
          processOutcome_get?_ne render table st _ j (by simp [outIdx, hij])
        rw [hrow]

theorem get?_replicate {α : Type} (a : α) :
    ∀ (n j : Nat), j < n → (List.replicate n a).get? j = some a := by
  intro n
  induction n with
  | zero => intro j hj; omega
  | succ m ih =>
    intro j hj
    cases j with
    | zero => rfl
    | succ k => exact ih k (Nat.lt_of_succ_lt_succ hj)

theorem filterMap_outIdx_range (ps : Nat → String) (rs : Nat → CResp) (N : Nat) :
    ((List.range N).map (fun i => COutcome.resp i (ps i) (rs i))).filterMap outIdx =
      List.range N := by
  rw [List.filterMap_map]
  have : (outIdx ∘ fun i => COutcome.resp i (ps i) (rs i)) = fun i => some i := rfl
  rw [this]
  have h2 : (fun i : Nat => some i) = some ∘ (fun i : Nat => i) := rfl
  rw [h2, List.filterMap_eq_map]
  exact List.map_id _

theorem find?_outcome_range (ps : Nat → String) (rs : Nat → CResp) :
    ∀ (N j : Nat), j < N →
    ((List.range N).map (fun i => COutcome.resp i (ps i) (rs i))).find?
        (fun o => outIdx o == some j) = some (COutcome.resp j (ps j) (rs j)) := by
  intro N
  induction N with
  | zero => intro j hj; omega
  | succ n ih =>
    intro j hj
    rw [List.range_succ, List.map_append, List.find?_append]
    by_cases hjn : j < n
    · rw [ih j hjn]
      rfl
    · have hj' : j = n := by omega
      subst hj'
      have hnone : ((List.range j).map (fun i => COutcome.resp i (ps i) (rs i))).find?
          (fun o => outIdx o == some j) = none := by
        rw [List.find?_eq_none]
        intro x hx
        rcases List.mem_map.mp hx with ⟨i, hi, rfl⟩
        have : i ≠ j := Nat.ne_of_lt (List.mem_range.mp hi)
        simp [outIdx, this]
      rw [hnone]
      simp [outIdx]

theorem filterMap_range_single {β : Type} (g : Nat → Option β) :
    ∀ (N k : Nat) (e : β), k < N → g k = some e →
    (∀ j, j < N → j ≠ k → g j = none) →
    (List.range N).filterMap g = [e] := by
  intro N
  induction N with
  | zero => intro k e hk; omega
  | succ n ih =>
    intro k e hk hgk hother
    rw [List.range_succ, List.filterMap_append]
    by_cases hkn : k < n
    · rw [ih k e hkn hgk (fun j hj hne => hother j (Nat.lt_succ_of_lt hj) hne)]
      have hn : g n = none := hother n (Nat.lt_succ_self n) (by omega)
      simp [hn]
    · have hkeq : k = n := by omega
      subst hkeq
      have h1 : (List.range k).filterMap g = [] := by
        rw [List.filterMap_eq_nil]
        intro j hj
        exact hother j (Nat.lt_succ_of_lt (List.mem_range.mp hj))
          (Nat.ne_of_lt (List.mem_range.mp hj))
      simp [h1, hgk]

/-- A concrete stand-in for the decode-and-render composite used on `x12` payloads. -/
def renderEx (s : String) : String := "RENDERED " ++ s

/-- Two completed entries: record 0 fails with HTTP 500, record 1 succeeds. -/
def cexOutcomes : List COutcome :=
  [.resp 0 "P0" ⟨some 500, "", false, "", some "bad payer id", none⟩,
   .resp 1 "P1" ⟨some 200, "X12BODY", false, "", none, none⟩]

/-- Claim C6 counterexample: in `submit_claim_status_requests` the returned
`results` list contains only the successful records — with record 0 failing,
`results[0]` is record 1's entry, not record 0's — and the failure entry
carries the request payload and status code but no record index. -/
theorem claimservice_results_lose_index :
    (submit_claim_status_requests renderEx [] cexOutcomes (List.replicate 2 emptyRow)).1 =
      [⟨"P1", renderEx "X12BODY"⟩] ∧
    ((submit_claim_status_requests renderEx [] cexOutcomes
        (List.replicate 2 emptyRow)).1.getD 0 ⟨"", ""⟩).request_payload ≠ "P0" ∧
    (submit_claim_status_requests renderEx [] cexOutcomes (List.replicate 2 emptyRow)).2.1 =
      [⟨some "P0", "bad payer id", some 500⟩] := by
  decide

/-- Claim C6 (amended): index preservation holds for the arrays that carry
it.  (1) `processor.py`: for every batch of `n` records and every completion
order (any permutation of the per-record `(index, response)` tuples), the
returned array satisfies `responses[i] = f i` for every record `i`.
(2) `claim_service.py`: the enriched DataFrame row `j` is updated only from
record `j`'s own outcome.  The `results`/`failed_requests` lists of
`claim_service.py`, however, carry no index (see
`claimservice_results_lose_index`). -/
theorem batch_index_preservation :
    (∀ (n : Nat) (f : Nat → PResp) (l : List (Nat × PResp)),
      l.Perm ((List.range n).map fun i => (i, f i)) →
      send_requests_concurrent n (l.map some) = (List.range n).map f) ∧
    (∀ (render : String → String) (table : List DenialRow) (N : Nat)
      (ps : Nat → String) (rs : Nat → CResp) (j : Nat), j < N →
      ((submit_claim_status_requests render table
          ((List.range N).map fun i => COutcome.resp i (ps i) (rs i))
          (List.replicate N emptyRow)).2.2.get? j).map (fun row => row.claim_status) =
        some (statusEffect render (rs j) "")) := by
  constructor
  · exact fun n f l hperm => processor_index_lemma n f l hperm
  · intro render table N ps rs j hj
    show ((submitFold render table ⟨[], [], List.replicate N emptyRow, ⟨"", "", ""⟩⟩
        ((List.range N).map fun i => COutcome.resp i (ps i) (rs i))).df.get? j).map
        (fun row => row.claim_status) = _
    rw [submitFold_status render table _ _ j
      (by rw [filterMap_outIdx_range]; exact List.nodup_range N)]
    rw [find?_outcome_range ps rs N j hj]
    show ((List.replicate N emptyRow).get? j).map _ = _
    rw [get?_replicate emptyRow N j hj]
    rfl

def fW : Nat → PResp := fun i => ⟨200 + i, true, none, none⟩

def lW : List (Nat × PResp) := [(1, fW 1), (0, fW 0)]

def psW : Nat → String := fun _ => "P"

def rsW : Nat → CResp := fun _ => ⟨some 200, "X", false, "", none, none⟩

/-- Witness for `batch_index_preservation`: a 2-record batch completing in
reversed order, and row 1 of a 3-record claim_service batch. -/
theorem batch_index_preservation_witness :
    send_requests_concurrent 2 (lW.map some) = (List.range 2).map fW ∧
    ((submit_claim_status_requests renderEx []
        ((List.range 3).map fun i => COutcome.resp i (psW i) (rsW i))
        (List.replicate 3 emptyRow)).2.2.get? 1).map (fun row => row.claim_status) =
      some (statusEffect renderEx (rsW 1) "") :=
  ⟨batch_index_preservation.1 2 fW lW (by decide),
   batch_index_preservation.2 renderEx [] 3 psW rsW 1 (by decide)⟩

/-- Claim C7: for a batch of `N` records in which exactly record `k` returns
a non-success HTTP status and every other record succeeds with a decodable
`x12` payload, `submit_claim_status_requests` yields `N` enriched rows in
original order, row `k` carries the sentinel `"Payer not supported"`, exactly
one failure entry (carrying record `k`'s payload and status) is produced, and
every other row carries its own rendered status text. -/
theorem batch_partial_failure (render : String → String) (table : List DenialRow)
    (N : Nat) (ps : Nat → String) (rs : Nat → CResp) (k : Nat)
    (hk : k < N)
    (hfail : (rs k).status_code ≠ some 200)
    (hok : ∀ j, j < N → j ≠ k → (rs j).status_code = some 200 ∧ (rs j).x12 ≠ "") :
    (submit_claim_status_requests render table
        ((List.range N).map fun i => COutcome.resp i (ps i) (rs i))
        (List.replicate N emptyRow)).2.2.length = N ∧
    ((submit_claim_status_requests render table
        ((List.range N).map fun i => COutcome.resp i (ps i) (rs i))
        (List.replicate N emptyRow)).2.2.get? k).map (fun row => row.claim_status) =
      some "Payer not supported" ∧
    (submit_claim_status_requests render table
        ((List.range N).map fun i => COutcome.resp i (ps i) (rs i))
        (List.replicate N emptyRow)).2.1 =
      [⟨some (ps k), bestErrMsg (rs k), (rs k).status_code⟩] ∧
    ∀ j, j < N → j ≠ k →
      ((submit_claim_status_requests render table
          ((List.range N).map fun i => COutcome.resp i (ps i) (rs i))
          (List.replicate N emptyRow)).2.2.get? j).map (fun row => row.claim_status) =
        some (render (rs j).x12) := by
  have hnd : ((((List.range N).map fun i => COutcome.resp i (ps i) (rs i))).filterMap
      outIdx).Nodup := by
    rw [filterMap_outIdx_range]
    exact List.nodup_range N
  refine ⟨?_, ?_, ?_, ?_⟩
  · show (submitFold render table ⟨[], [], List.replicate N emptyRow, ⟨"", "", ""⟩⟩ _).df.length = N
    rw [submitFold_df_length]
    exact List.length_replicate N emptyRow
  · show ((submitFold render table ⟨[], [], List.replicate N emptyRow, ⟨"", "", ""⟩⟩ _).df.get? k).map
        (fun row => row.claim_status) = _
    rw [submitFold_status render table _ _ k hnd, find?_outcome_range ps rs N k hk]
    show ((List.replicate N emptyRow).get? k).map _ = _
    rw [get?_replicate emptyRow N k hk]
    show some (statusEffect render (rs k) emptyRow.claim_status) = _
    unfold statusEffect
    rw [if_pos hfail]
  · show (submitFold render table ⟨[], [], List.replicate N emptyRow, ⟨"", "", ""⟩⟩ _).failures = _
    rw [submitFold_failures]
    show [] ++ _ = _
    rw [List.nil_append, List.filterMap_map]
    refine filterMap_range_single _ N k _ hk ?_ ?_
    · show failureOf (COutcome.resp k (ps k) (rs k)) = _
      unfold failureOf
      dsimp only
      rw [if_pos hfail]
    · intro j hj hjk
      show failureOf (COutcome.resp j (ps j) (rs j)) = none
      unfold failureOf
      dsimp only
      rw [if_neg (by simp [(hok j hj hjk).1]), if_neg (hok j hj hjk).2]
  · intro j hj hjk
    show ((submitFold render table ⟨[], [], List.replicate N emptyRow, ⟨"", "", ""⟩⟩ _).df.get? j).map
        (fun row => row.claim_status) = _
    rw [submitFold_status render table _ _ j hnd, find?_outcome_range ps rs N j hj]
    show ((List.replicate N emptyRow).get? j).map _ = _
    rw [get?_replicate emptyRow N j hj]
    show some (statusEffect render (rs j) emptyRow.claim_status) = _
    unfold statusEffect
    rw [if_neg (by simp [(hok j hj hjk).1]), if_neg (hok j hj hjk).2]

def rsC7 : Nat → CResp := fun i =>
  if i = 1 then ⟨some 404, "", false, "", some "payer rejected", none⟩
  else ⟨some 200, "BODY", false, "", none, none⟩

/-- Witness for `batch_partial_failure`: three records, record 1 failing. -/
theorem batch_partial_failure_witness :
    (submit_claim_status_requests renderEx []
        ((List.range 3).map fun i => COutcome.resp i (psW i) (rsC7 i))
        (List.replicate 3 emptyRow)).2.2.length = 3 ∧
    ((submit_claim_status_requests renderEx []
        ((List.range 3).map fun i => COutcome.resp i (psW i) (rsC7 i))
        (List.replicate 3 emptyRow)).2.2.get? 1).map (fun row => row.claim_status) =
      some "Payer not supported" ∧
    (submit_claim_status_requests renderEx []
        ((List.range 3).map fun i => COutcome.resp i (psW i) (rsC7 i))
        (List.replicate 3 emptyRow)).2.1 =
      [⟨some (psW 1), bestErrMsg (rsC7 1), (rsC7 1).status_code⟩] ∧
    ∀ j, j < 3 → j ≠ 1 →
      ((submit_claim_status_requests renderEx []
          ((List.range 3).map fun i => COutcome.resp i (psW i) (rsC7 i))
          (List.replicate 3 emptyRow)).2.2.get? j).map (fun row => row.claim_status) =
        some (renderEx (rsC7 j).x12) :=
  batch_partial_failure renderEx [] 3 psW rsC7 1 (by decide) (by decide) (by decide)

/-! ## Payload construction (`generate_payloads_from_csv` / `create_payload`) -/

/-- The trading-partner-id step of `generate_payloads_from_csv`: the raw
`ECS PAYOR ID` cell (`none` models NaN) is stripped; if the candidate has
fewer than 5 characters the resolver is consulted and its value also
overwrites the DataFrame cell, else the candidate is used as-is and the cell
is left untouched.  Returns `(payload id, cell after the step)`. -/
def genTPID (ecs : Option String) (payor_name : String)
    (resolveC : String → String → String) : String × Option String :=
  let cand := match ecs with
    | none => ""
    | some s => stripStr s
  if cand.length < 5 then
    let tp := resolveC payor_name cand
    (tp, some tp)
  else (cand, ecs)

/-- The trading-partner-id step of `processor.create_payload`: `safe_value`
output (`none` models NaN), used as-is only when truthy and of length ≥ 5,
else the resolver is consulted with the organization name and the candidate. -/
def create_payload_tpid (ecs : Option String) (payor_name : String)
    (resolveP : String → Option String → String) : String :=
  match ecs with
  | some s => if s ≠ "" ∧ 5 ≤ s.length then s else resolveP payor_name ecs
  | none => resolveP payor_name none

/-- Claim C8: in both engines, a candidate payer id of length < 5 (including
absent/empty) routes through the Payer Resolver — in `claim_service` the
resolved value becomes the payload id and overwrites the record's id cell —
while a candidate of length ≥ 5 is used as-is, leaves the cell untouched, and
the resolver is never consulted (the result is independent of it). -/
theorem payload_tpid_threshold (ecs : Option String) (name : String)
    (resolveC : String → String → String) (resolveP : String → Option String → String) :
    ((match ecs with | none => "" | some s => stripStr s).length < 5 →
      genTPID ecs name resolveC =
        (resolveC name (match ecs with | none => "" | some s => stripStr s),
         some (resolveC name (match ecs with | none => "" | some s => stripStr s)))) ∧
    (5 ≤ (match ecs with | none => "" | some s => stripStr s).length →
      genTPID ecs name resolveC =
        ((match ecs with | none => "" | some s => stripStr s), ecs) ∧
      ∀ rc : String → String → String, genTPID ecs name rc = genTPID ecs name resolveC) ∧
    (∀ s, ecs = some s → 5 ≤ s.length →
      create_payload_tpid ecs name resolveP = s ∧
      ∀ rp : String → Option String → String,
        create_payload_tpid ecs name rp = create_payload_tpid ecs name resolveP) ∧
    ((ecs = none ∨ ∃ s, ecs = some s ∧ s.length < 5) →
      create_payload_tpid ecs name resolveP = resolveP name ecs) := by
  refine ⟨?_, ?_, ?_, ?_⟩
  · intro hlt
    unfold genTPID
    rw [if_pos hlt]
  · intro hge
    have hnot : ¬(match ecs with | none => "" | some s => stripStr s).length < 5 := by omega
    constructor
    · unfold genTPID
      rw [if_neg hnot]
    · intro rc
      unfold genTPID
      rw [if_neg hnot, if_neg hnot]
  · intro s hs hlen
    subst hs
    have hne : s ≠ "" := by
      intro h
      subst h
      simp [String.length] at hlen
    constructor
    · unfold create_payload_tpid
      dsimp only
      rw [if_pos ⟨hne, hlen⟩]
    · intro rp
      unfold create_payload_tpid
      dsimp only
      rw [if_pos ⟨hne, hlen⟩, if_pos ⟨hne, hlen⟩]
  · intro hcase
    rcases hcase with rfl | ⟨s, rfl, hlen⟩
    · rfl
    · unfold create_payload_tpid
      dsimp only
      rw [if_neg (fun h => absurd h.2 (by omega))]

def rcW : String → String → String := fun n c => n ++ "-" ++ c

def rpW : String → Option String → String := fun n _ => n

/-- Witness for `payload_tpid_threshold`: a 2-character candidate goes
through the resolver (claim_service side) and a 6-character candidate is
used as-is (processor side). -/
theorem payload_tpid_threshold_witness :
    genTPID (some "12") "ACME" rcW =
      (rcW "ACME" (stripStr "12"), some (rcW "ACME" (stripStr "12"))) ∧
    create_payload_tpid (some "123456") "ACME" rpW = "123456" :=
  ⟨by
    have h := (payload_tpid_threshold (some "12") "ACME" rcW rpW).1 (by decide)
    exact h,
   ((payload_tpid_threshold (some "123456") "ACME" rcW rpW).2.2.1 "123456" rfl (by decide)).1⟩

theorem stcProcessVals_keys_mono : ∀ (vs keys : List String) (svc : ServiceLine),
    keys.length ≤ ((stcProcessVals vs (keys, svc)).1).length := by
  intro vs
  induction vs with
  | nil => intro keys svc; exact Nat.le_refl _
  | cons v vs ih =>
    intro keys svc
    rw [stcProcessVals]
    by_cases h1 : v = ""
    · rw [if_pos h1]; exact ih keys svc
    rw [if_neg h1]
    dsimp only
    by_cases h2 : (splitStr ':' v).getD 0 "" ≠ "" ∨ (splitStr ':' v).getD 1 "" ≠ ""
    · rw [if_pos h2]
      by_cases h3 : ((splitStr ':' v).getD 0 "" ++ ":" ++ (splitStr ':' v).getD 1 "" ++ ":" ++
          (splitStr ':' v).getD 2 "1P") ∈ keys
      · rw [if_pos h3]; exact ih keys svc
      · rw [if_neg h3]
        refine Nat.le_trans ?_ (ih _ _)
        simp
    · rw [if_neg h2]; exact ih keys svc

theorem stcProcessVals_keys_nodup : ∀ (vs keys : List String) (svc : ServiceLine),
    keys.Nodup → ((stcProcessVals vs (keys, svc)).1).Nodup := by
  intro vs
  induction vs with
  | nil => intro keys svc h; exact h
  | cons v vs ih =>
    intro keys svc h
    rw [stcProcessVals]
    by_cases h1 : v = ""
    · rw [if_pos h1]; exact ih keys svc h
    rw [if_neg h1]
    dsimp only
    by_cases h2 : (splitStr ':' v).getD 0 "" ≠ "" ∨ (splitStr ':' v).getD 1 "" ≠ ""
    · rw [if_pos h2]
      by_cases h3 : ((splitStr ':' v).getD 0 "" ++ ":" ++ (splitStr ':' v).getD 1 "" ++ ":" ++
          (splitStr ':' v).getD 2 "1P") ∈ keys
      · rw [if_pos h3]; exact ih keys svc h
      · rw [if_neg h3]
        refine ih _ _ ?_
        rw [List.nodup_append]
        exact ⟨h, List.nodup_singleton _, by simpa using h3⟩
    · rw [if_neg h2]; exact ih keys svc h

theorem stcProcessVals_adj_count : ∀ (vs keys : List String) (svc : ServiceLine),
    (stcProcessVals vs (keys, svc)).2.adjustments.length =
      svc.adjustments.length + (((stcProcessVals vs (keys, svc)).1).length - keys.length) := by
  intro vs
  induction vs with
  | nil => intro keys svc; simp [stcProcessVals]
  | cons v vs ih =>
    intro keys svc
    rw [stcProcessVals]
    by_cases h1 : v = ""
    · rw [if_pos h1]; exact ih keys svc
    rw [if_neg h1]
    dsimp only
    by_cases h2 : (splitStr ':' v).getD 0 "" ≠ "" ∨ (splitStr ':' v).getD 1 "" ≠ ""
    · rw [if_pos h2]
      by_cases h3 : ((splitStr ':' v).getD 0 "" ++ ":" ++ (splitStr ':' v).getD 1 "" ++ ":" ++
          (splitStr ':' v).getD 2 "1P") ∈ keys
      · rw [if_pos h3]; exact ih keys svc
      · rw [if_neg h3]
        rw [ih]
        have hmono := stcProcessVals_keys_mono vs
          (keys ++ [(splitStr ':' v).getD 0 "" ++ ":" ++ (splitStr ':' v).getD 1 "" ++ ":" ++
            (splitStr ':' v).getD 2 "1P"])
          { svc with
            status_code := if svc.status_code = "" then (splitStr ':' v).getD 0 "" else svc.status_code,
            status_code2 := if svc.status_code2 = "" then (splitStr ':' v).getD 1 "" else svc.status_code2,
            adjustments := svc.adjustments ++
              [⟨(splitStr ':' v).getD 0 "", (splitStr ':' v).getD 1 "", svc.charge,
                if (splitStr ':' v).getD 2 "1P" = "" then "1P" else (splitStr ':' v).getD 2 "1P"⟩] }
        simp only [List.length_append, List.length_singleton] at hmono ⊢
        omega
    · rw [if_neg h2]; exact ih keys svc

/-- Claim C1 (amended): within a single `STC` segment, deduplication is by
the raw candidate key `status_code:reason_code:entity` built from the
*pre-default* entity sub-field: a candidate repeating an already-seen key is
dropped — the threaded key set stays duplicate-free, and exactly one
Adjustment is appended per new key.  This dedup covers neither the stored
(status, reason, entity) triple within one segment — candidates `F2:171`
(key `F2:171:1P`) and `F2:171:` (key `F2:171:`) both append, yielding two
Adjustments with the identical stored triple — nor repeated triples across
segments, where the key set is rebuilt
(`service_adjustments_duplicate_triple`). -/
theorem stc_dedup_raw_key_only :
    (∀ (vs keys : List String) (svc : ServiceLine),
      keys.Nodup → ((stcProcessVals vs (keys, svc)).1).Nodup) ∧
    (∀ (vs keys : List String) (svc : ServiceLine),
      (stcProcessVals vs (keys, svc)).2.adjustments.length =
        svc.adjustments.length + (((stcProcessVals vs (keys, svc)).1).length - keys.length)) ∧
    (svcSTCApply svcExample
        ["STC", "F2:171", "", "", "", "", "", "", "", "", "F2:171:"]).adjustments.map
        (fun a => (a.status_code, a.reason_code, a.entity_code)) =
      [("F2", "171", "1P"), ("F2", "171", "1P")] :=
  ⟨stcProcessVals_keys_nodup, stcProcessVals_adj_count, by decide⟩

/-- Witness for `stc_dedup_raw_key_only`: one segment offering the raw value
`F2:171` twice yields a duplicate-free key set and exactly one new
adjustment. -/
theorem stc_dedup_raw_key_only_witness :
    ((stcProcessVals ["F2:171", "F2:171", ""] ([], svcExample)).1).Nodup ∧
    (stcProcessVals ["F2:171", "F2:171", ""] ([], svcExample)).2.adjustments.length =
      svcExample.adjustments.length +
        (((stcProcessVals ["F2:171", "F2:171", ""] ([], svcExample)).1).length -
          ([] : List String).length) :=
  ⟨stc_dedup_raw_key_only.1 ["F2:171", "F2:171", ""] [] svcExample (by decide),
   stc_dedup_raw_key_only.2.1 ["F2:171", "F2:171", ""] [] svcExample⟩
